import Mathlib

/-!
Verification of the ufps repository's core logic: the frame-rate option
algorithm (`ufps/utils.py`), the metadata frame-rate parsing
(`get_video_info`), and the processing pipeline (`ufps/core.py`).

Python floats are modelled as rationals (`ℚ`); Python exceptions are
modelled as values of `PyErr` carried in `Except`.
-/

namespace Ufps

/-- Python exception classes raised by the modelled code. -/
inductive PyErr where
  | zeroDivision
  | valueError
  | runtimeError (msg : String)
  | nameError (nm : String)
  deriving DecidableEq, Repr

/-- One entry of the list built by `get_fps_options` (utils.py lines 148-160):
a dict with keys 'target', 'actual', 'scale', 'exact'. -/
structure FpsOption where
  target : ℚ
  actual : ℚ
  scale : ℕ
  exact : Bool
  deriving DecidableEq, Repr

/-- utils.py line 126: `standard_fps = [24, 25, 30, 48, 50, 60, 90, 96, 100, 120, 144, 180, 240]`. -/
def standard_fps : List ℚ := [24, 25, 30, 48, 50, 60, 90, 96, 100, 120, 144, 180, 240]

/-- utils.py lines 146-160: given the computed `actual_fps` and `scale` for a
`target`, either append an exact option, an inexact option capped at 240,
or nothing. -/
def mkOpt (target actual_fps : ℚ) (scale : ℕ) : Option FpsOption :=
  if |actual_fps - target| < 1 then
    some { target := target, actual := actual_fps, scale := scale, exact := true }
  else if actual_fps ≤ 240 then
    some { target := actual_fps, actual := actual_fps, scale := scale, exact := false }
  else
    none

/-- utils.py lines 129-160, one loop iteration: for a single `target`, decide
whether an option is appended. Python raises `ZeroDivisionError` at
`target / current_fps` when `current_fps` is zero. -/
def fpsOptionFor (current_fps target : ℚ) : Except PyErr (Option FpsOption) :=
  if target > current_fps then
    if current_fps = 0 then .error .zeroDivision
    else
      let scale_needed := target / current_fps
      if scale_needed ≤ 2 then .ok (mkOpt target (current_fps * 2) 2)
      else if scale_needed ≤ 4 then .ok (mkOpt target (current_fps * 4) 4)
      else if scale_needed ≤ 8 then .ok (mkOpt target (current_fps * 8) 8)
      else .ok none
  else .ok none

/-- utils.py lines 128-160: the `options` list accumulated over the target
loop, in iteration order; an exception in any iteration aborts the loop. -/
def collectOptions (current_fps : ℚ) : List ℚ → Except PyErr (List FpsOption)
  | [] => .ok []
  | t :: ts =>
    match fpsOptionFor current_fps t with
    | .error e => .error e
    | .ok o =>
      match collectOptions current_fps ts with
      | .error e => .error e
      | .ok rest =>
        .ok (match o with | some x => x :: rest | none => rest)

/-- utils.py line 166: the dedup key `(opt['actual'], opt['scale'])`. -/
def optKey (o : FpsOption) : ℚ × ℕ := (o.actual, o.scale)

/-- utils.py lines 162-169: first-occurrence deduplication by `optKey`
with a running `seen` set. -/
def dedupOpts : List (ℚ × ℕ) → List FpsOption → List FpsOption
  | _, [] => []
  | seen, o :: rest =>
    if optKey o ∈ seen then dedupOpts seen rest
    else o :: dedupOpts (optKey o :: seen) rest

/-- utils.py line 171: the sort key order, ascending by `'actual'`. -/
def optLe (a b : FpsOption) : Prop := a.actual ≤ b.actual

instance : DecidableRel optLe :=
  fun a b => inferInstanceAs (Decidable (a.actual ≤ b.actual))

instance : IsTotal FpsOption optLe := ⟨fun a b => le_total a.actual b.actual⟩

instance : IsTrans FpsOption optLe := ⟨fun _ _ _ h1 h2 => le_trans h1 h2⟩

/-- utils.py lines 124-171: `get_fps_options(current_fps)`. Builds the option
list over `standard_fps`, removes duplicates keeping the first occurrence of
each `(actual, scale)` key, and sorts ascending by `'actual'`. -/
def get_fps_options (current_fps : ℚ) : Except PyErr (List FpsOption) :=
  match collectOptions current_fps standard_fps with
  | .error e => .error e
  | .ok options => .ok (List.insertionSort optLe (dedupOpts [] options))

/-! ## get_video_info (utils.py lines 37-98): frame-rate parsing -/

/-- One entry of the probe's `streams` array, restricted to the fields the
frame-rate logic reads. `r_frame_rate` is the slash-separated, float-parsed
components of the `'r_frame_rate'` string: a bare number `"x"` is `[x]`,
a rational `"num/den"` is `[num, den]`; `none` means the key is absent. -/
structure StreamRec where
  codec_type : String
  r_frame_rate : Option (List ℚ)
  deriving DecidableEq, Repr

/-- The part of the descriptor returned by `get_video_info` that the
frame-rate claims concern. -/
structure VideoInfo where
  fps : ℚ
  has_audio : Bool
  deriving DecidableEq, Repr

/-- utils.py lines 74-79: compute `fps` from the `'r_frame_rate'` field.
An absent field defaults to `'30/1'`. A string containing `'/'` (two or
more components) is unpacked as `num, den` — any other component count
raises `ValueError` — and gives `num / den`, or `30.0` when `den` is `0`.
A bare number is parsed directly. -/
def parseFps (field : Option (List ℚ)) : Except PyErr ℚ :=
  let comps := (field.getD [30, 1])
  if 2 ≤ comps.length then
    match comps with
    | [num, den] => .ok (if den ≠ 0 then num / den else 30)
    | _ => .error .valueError
  else
    match comps with
    | [x] => .ok x
    | _ => .error .valueError

/-- utils.py lines 61-79 and 95: select the first video and first audio
stream, fail when there is no video stream, and compute `fps`. -/
def get_video_info (streams : List StreamRec) : Except PyErr VideoInfo :=
  let video_stream := streams.find? (fun s => s.codec_type == "video")
  let audio_stream := streams.find? (fun s => s.codec_type == "audio")
  match video_stream with
  | none => .error (.runtimeError "No video stream found")
  | some v =>
    match parseFps v.r_frame_rate with
    | .error e => .error e
    | .ok fps => .ok { fps := fps, has_audio := audio_stream.isSome }

/-! ## core.py: the processing pipeline

core.py imports `os, subprocess, shutil, tempfile, Path, math, datetime`
(lines 5-11) and never imports `sys`, yet references `sys.path` (line 114)
and `sys.executable` (lines 141, 157). Evaluating those references raises
`NameError` at run time. The embedding is parameterized by `sysBound`,
whether the name `sys` is bound in the module's globals; the actual module
environment is `coreSysBound`, computed from the transcribed import list.

External effects (subprocess exits, files appearing) are inputs in a
`World`; the mutable facts the claims observe (current working directory,
temp-directory existence, which stages ran, output .png count, the
subprocess invocations issued) are threaded through a state `St`. -/

/-- The names bound by core.py's import statements (lines 5-11). -/
def coreImports : List String := ["os", "subprocess", "shutil", "tempfile", "Path", "math", "datetime"]

/-- Whether the name `sys` is bound in core.py's module globals. -/
def coreSysBound : Bool := coreImports.contains "sys"

/-- The four pipeline stages of `process_video` (core.py lines 196-215). -/
inductive Stage where
  | extractFrames
  | interpolate
  | extractAudio
  | encode
  deriving DecidableEq, Repr

/-- Which wrapped external program a subprocess invocation runs. -/
inductive ProcKind where
  | ffmpegExtract
  | rifeScript
  | ffmpegAudio
  | ffmpegEncode
  deriving DecidableEq, Repr

/-- One `subprocess.run` call: its kind, argument list, and the process
working directory at the time of the call. -/
structure Invocation where
  kind : ProcKind
  cmd : List String
  cwd : String
  deriving DecidableEq, Repr

/-- Observable mutable facts of one `process_video` run. -/
structure St where
  cwd : String
  tempDirExists : Bool
  stagesRun : List Stage
  outPngs : ℕ
  invocations : List Invocation
  deriving DecidableEq, Repr

/-- Environment facts the code branches on: which executables/directories
exist and how each external invocation behaves. `runExitZero i m` /
`runPngsWritten i m` describe the run of script `i` with (`m = true`) or
without the `--modelDir` argument. -/
structure World where
  ffmpegFound : Bool
  rifeDirExists : Bool
  modelsDirExists : Bool
  extractExitZero : Bool
  extractedFrames : ℕ
  scriptExists : Fin 3 → Bool
  runExitZero : Fin 3 → Bool → Bool
  runPngsWritten : Fin 3 → Bool → ℕ
  audioExitZero : Bool
  audioFileProduced : Bool
  encodeExitZero : Bool

def originalCwd : String := "/work"

def rifeDirPath : String := "/home/user/.ufps/RIFE"

def modelsDirPath : String := "/home/user/.ufps/models"

def tempDirPath : String := "/tmp/ufps_work"

def framesDirPath : String := tempDirPath ++ "/frames"

def interpDirPath : String := tempDirPath ++ "/interpolated"

def audioPath : String := tempDirPath ++ "/audio.aac"

def ffmpegPath : String := "ffmpeg"

def pythonExe : String := "python3"

def inputPath : String := "input.mp4"

def outputPath : String := "output.mp4"

/-- core.py line 21: message of the `RuntimeError` raised by
`VideoProcessor.__init__` when ffmpeg is missing. -/
def ffmpegMissingMsg : String := "FFmpeg not found. Please install ffmpeg."

/-- core.py line 108: message when the RIFE directory is absent. -/
def rifeMissingMsg : String := "RIFE not found at " ++ rifeDirPath

/-- core.py line 111: message when the models directory is absent. -/
def modelsMissingMsg : String := "Models not found at " ++ modelsDirPath

/-- core.py line 39: message when frame extraction exits non-zero. -/
def extractFailMsg : String := "Failed to extract frames"

/-- core.py line 171: message when every interpolation attempt failed. -/
def interpFailMsg : String := "RIFE interpolation failed - no compatible script found"

/-- core.py line 94: message when encoding exits non-zero. -/
def encodeFailMsg : String := "Failed to encode video"

/-- The four stages in pipeline order (core.py lines 196-215). -/
def allStages : List Stage :=
  [Stage.extractFrames, Stage.interpolate, Stage.extractAudio, Stage.encode]

/-- Initial state of a `process_video` run, right after `tempfile.mkdtemp`
(core.py line 186) created the temporary directory. -/
def initSt : St :=
  { cwd := originalCwd, tempDirExists := true, stagesRun := [], outPngs := 0, invocations := [] }

/-- core.py lines 16-21, `VideoProcessor.__init__`: raises `RuntimeError`
when ffmpeg/ffprobe cannot be found. -/
def mkVideoProcessor (w : World) : Except PyErr Unit :=
  if w.ffmpegFound then .ok ()
  else .error (.runtimeError ffmpegMissingMsg)

/-- core.py lines 102-114, `RIFEInterpolator.__init__`: raises
`RuntimeError` when the RIFE or models directory is absent; otherwise
evaluates `sys.path.insert(0, ...)` (line 114), which raises `NameError`
when the name `sys` is unbound in the module. -/
def mkRIFEInterpolator (sysBound : Bool) (w : World) : Except PyErr Unit :=
  if w.rifeDirExists then
    if w.modelsDirExists then
      if sysBound then .ok () else .error (.nameError "sys")
    else .error (.runtimeError modelsMissingMsg)
  else .error (.runtimeError rifeMissingMsg)

/-- core.py lines 28-35: the frame-extraction ffmpeg command (quality 1). -/
def extractCmd : List String :=
  [ffmpegPath, "-i", inputPath, "-qscale:v", "1", "-qmin", "1",
   framesDirPath ++ "/frame_%08d.png", "-loglevel", "error"]

/-- core.py lines 23-42, `VideoProcessor.extract_frames`: run ffmpeg,
raise `RuntimeError` on non-zero exit, else return the frame count. -/
def extract_frames (w : World) (s : St) : Except PyErr ℕ × St :=
  let s1 := { s with invocations :=
    s.invocations ++ [{ kind := .ffmpegExtract, cmd := extractCmd, cwd := s.cwd }] }
  if w.extractExitZero then (.ok w.extractedFrames, s1)
  else (.error (.runtimeError extractFailMsg), s1)

/-- core.py line 133: the candidate inference script names, in order. -/
def scriptName : Fin 3 → String := !["inference_video.py", "inference_img.py", "inference.py"]

/-- core.py lines 140-146 / 157-162: the RIFE invocation command, with or
without the `--modelDir` argument. -/
def rifeCmd (i : Fin 3) (exp_value : ℕ) (withModel : Bool) : List String :=
  [pythonExe, rifeDirPath ++ "/" ++ scriptName i,
   "--img", framesDirPath, "--output", interpDirPath, "--exp", toString exp_value]
    ++ (if withModel then ["--modelDir", modelsDirPath] else [])

/-- One `subprocess.run` of script `i`: records the invocation at the
current working directory, adds the .png files the run writes into the
output directory, and reports whether the exit code was zero. -/
def runScript (w : World) (i : Fin 3) (exp_value : ℕ) (withModel : Bool) (s : St) : Bool × St :=
  let s1 := { s with
    invocations := s.invocations ++
      [{ kind := .rifeScript, cmd := rifeCmd i exp_value withModel, cwd := s.cwd }],
    outPngs := s.outPngs + w.runPngsWritten i withModel }
  (w.runExitZero i withModel, s1)

/-- core.py lines 135-171: the fallback loop over candidate scripts.
Absent scripts are skipped; a present one is first run with `--modelDir`,
returning the .png count when the exit code is zero and the output
directory (`glob("*.png")`, cumulative across attempts) is non-empty, else
re-run without `--modelDir` under the same success test, else the next
script is tried; when all are exhausted a `RuntimeError` is raised.
Building the command reads `sys.executable` (line 141), so with `sys`
unbound the first present script raises `NameError` instead. -/
def interpLoop (sysBound : Bool) (w : World) (exp_value : ℕ) :
    List (Fin 3) → St → Except PyErr ℕ × St
  | [], s => (.error (.runtimeError interpFailMsg), s)
  | i :: rest, s =>
    if w.scriptExists i then
      if sysBound then
        let r1 := runScript w i exp_value true s
        if r1.1 = true ∧ 0 < r1.2.outPngs then (.ok r1.2.outPngs, r1.2)
        else
          let r2 := runScript w i exp_value false r1.2
          if r2.1 = true ∧ 0 < r2.2.outPngs then (.ok r2.2.outPngs, r2.2)
          else interpLoop sysBound w exp_value rest r2.2
      else (.error (.nameError "sys"), s)
    else interpLoop sysBound w exp_value rest s

/-- core.py lines 116-175, `RIFEInterpolator.interpolate`: computes
`exp = int(log2(scale))`, saves the working directory, switches to the
RIFE root, runs the fallback loop, and restores the working directory in
a `finally` block on every exit path. -/
def interpolate (sysBound : Bool) (w : World) (scale : ℕ) (s : St) : Except PyErr ℕ × St :=
  let exp_value := Nat.log2 scale
  let original_dir := s.cwd
  let r := interpLoop sysBound w exp_value [0, 1, 2] { s with cwd := rifeDirPath }
  (r.1, { r.2 with cwd := original_dir })

/-- core.py lines 46-54: the audio-extraction ffmpeg command. -/
def audioCmd : List String :=
  [ffmpegPath, "-i", inputPath, "-vn", "-acodec", "copy", audioPath, "-loglevel", "error", "-y"]

/-- core.py lines 44-57, `VideoProcessor.extract_audio`: runs ffmpeg and
returns the output path when the output file exists afterwards, `None`
otherwise. The exit code (`w.audioExitZero`) is never consulted and no
exception is raised. -/
def extract_audio (w : World) (s : St) : Option String × St :=
  let s1 := { s with invocations :=
    s.invocations ++ [{ kind := .ffmpegAudio, cmd := audioCmd, cwd := s.cwd }] }
  (if w.audioFileProduced then some audioPath else none, s1)

/-- core.py lines 63-90: the encoding ffmpeg command; the audio input and
`-c:a copy` appear only when an audio path was supplied and its file
exists (within the pipeline, `extract_audio` returned it only if the file
existed, and nothing removes it before encoding). -/
def encodeCmd (dir : String) (fps : ℚ) (crf : ℕ) (audio : Option String) : List String :=
  match audio with
  | some ap =>
    [ffmpegPath, "-r", toString fps, "-i", dir ++ "/frame_%08d.png", "-i", ap,
     "-c:v", "libx264", "-crf", toString crf, "-preset", "slow", "-pix_fmt", "yuv420p",
     "-c:a", "copy", outputPath, "-loglevel", "error", "-y"]
  | none =>
    [ffmpegPath, "-r", toString fps, "-i", dir ++ "/frame_%08d.png",
     "-c:v", "libx264", "-crf", toString crf, "-preset", "slow", "-pix_fmt", "yuv420p",
     outputPath, "-loglevel", "error", "-y"]

/-- core.py lines 59-96, `VideoProcessor.encode_video`: run ffmpeg, raise
`RuntimeError` on non-zero exit, else return the output path. -/
def encode_video (w : World) (dir : String) (fps : ℚ) (audio : Option String) (crf : ℕ)
    (s : St) : Except PyErr String × St :=
  let s1 := { s with invocations :=
    s.invocations ++ [{ kind := .ffmpegEncode, cmd := encodeCmd dir fps crf audio, cwd := s.cwd }] }
  if w.encodeExitZero then (.ok outputPath, s1)
  else (.error (.runtimeError encodeFailMsg), s1)

/-- core.py lines 188-220: the `try` body of `process_video` — construct
the two processors, then run the four stages in order, stopping at the
first exception. Each stage is recorded in `stagesRun` when it starts. -/
def pipelineBody (sysBound : Bool) (w : World) (scale : ℕ) (target_fps : ℚ) (crf : ℕ)
    (s : St) : Except PyErr Bool × St :=
  match mkVideoProcessor w with
  | .error e => (.error e, s)
  | .ok _ =>
    match mkRIFEInterpolator sysBound w with
    | .error e => (.error e, s)
    | .ok _ =>
      let s1 := { s with stagesRun := s.stagesRun ++ [Stage.extractFrames] }
      match extract_frames w s1 with
      | (.error e, s2) => (.error e, s2)
      | (.ok _, s2) =>
        let s3 := { s2 with stagesRun := s2.stagesRun ++ [Stage.interpolate] }
        match interpolate sysBound w scale s3 with
        | (.error e, s4) => (.error e, s4)
        | (.ok _, s4) =>
          let s5 := { s4 with stagesRun := s4.stagesRun ++ [Stage.extractAudio] }
          let (audio, s6) := extract_audio w s5
          let s7 := { s6 with stagesRun := s6.stagesRun ++ [Stage.encode] }
          match encode_video w interpDirPath target_fps audio crf s7 with
          | (.error e, s8) => (.error e, s8)
          | (.ok _, s8) => (.ok true, s8)

/-- core.py lines 222-225: the `finally` block removes the temporary
directory when it exists. -/
def cleanupTempDir (s : St) : St := { s with tempDirExists := false }

/-- core.py lines 178-225, `process_video`: create the temporary
directory, run the pipeline body, and unconditionally clean up, passing
the body's outcome (value or exception) through unchanged. -/
def process_video (sysBound : Bool) (w : World) (scale : ℕ) (target_fps : ℚ) (crf : ℕ) :
    Except PyErr Bool × St :=
  let p := pipelineBody sysBound w scale target_fps crf initSt
  (p.1, cleanupTempDir p.2)

/-! ## Lemmas about `get_fps_options` -/

instance {ε α : Type} [DecidableEq ε] [DecidableEq α] : DecidableEq (Except ε α) := fun x y =>
  match x, y with
  | .error a, .error b =>
    if h : a = b then .isTrue (h ▸ rfl) else .isFalse (fun hh => h (Except.error.inj hh))
  | .ok a, .ok b =>
    if h : a = b then .isTrue (h ▸ rfl) else .isFalse (fun hh => h (Except.ok.inj hh))
  | .error _, .ok _ => .isFalse (fun hh => Except.noConfusion hh)
  | .ok _, .error _ => .isFalse (fun hh => Except.noConfusion hh)

lemma mkOpt_spec (fps t a : ℚ) (sc : ℕ) (o : FpsOption) (ha : a = fps * sc)
    (h : mkOpt t a sc = some o) :
    o.actual = fps * o.scale ∧ o.scale = sc ∧ (o.exact = true ∨ o.actual ≤ 240) := by
  unfold mkOpt at h
  split_ifs at h with h1 h2
  · cases h
    exact ⟨ha, rfl, Or.inl rfl⟩
  · cases h
    exact ⟨ha, rfl, Or.inr h2⟩

lemma fpsOptionFor_spec (fps t : ℚ) (o : FpsOption)
    (h : fpsOptionFor fps t = .ok (some o)) :
    o.actual = fps * o.scale ∧ (o.scale = 2 ∨ o.scale = 4 ∨ o.scale = 8) ∧
      (o.exact = true ∨ o.actual ≤ 240) := by
  simp only [fpsOptionFor] at h
  split_ifs at h with hgt hz h2 h4 h8 <;> simp at h
  · obtain ⟨hA, hsc, hex⟩ := mkOpt_spec fps t (fps * 2) 2 o (by push_cast; ring) h
    exact ⟨hA, Or.inl hsc, hex⟩
  · obtain ⟨hA, hsc, hex⟩ := mkOpt_spec fps t (fps * 4) 4 o (by push_cast; ring) h
    exact ⟨hA, Or.inr (Or.inl hsc), hex⟩
  · obtain ⟨hA, hsc, hex⟩ := mkOpt_spec fps t (fps * 8) 8 o (by push_cast; ring) h
    exact ⟨hA, Or.inr (Or.inr hsc), hex⟩

lemma collectOptions_mem (fps : ℚ) :
    ∀ (L : List ℚ) (opts : List FpsOption), collectOptions fps L = .ok opts →
      ∀ o ∈ opts, o.actual = fps * o.scale ∧ (o.scale = 2 ∨ o.scale = 4 ∨ o.scale = 8) ∧
        (o.exact = true ∨ o.actual ≤ 240) := by
  intro L
  induction L with
  | nil =>
    intro opts h o ho
    simp only [collectOptions, Except.ok.injEq] at h
    subst h
    simp at ho
  | cons t ts ih =>
    intro opts h o ho
    rw [collectOptions] at h
    rcases hf : fpsOptionFor fps t with e | o1 <;> rw [hf] at h
    · simp at h
    · rcases hc : collectOptions fps ts with e | rest <;> rw [hc] at h
      · simp at h
      · rcases o1 with _ | x <;> simp only [Except.ok.injEq] at h <;> subst h
        · exact ih rest hc o ho
        · rcases List.mem_cons.mp ho with rfl | ho'
          · exact fpsOptionFor_spec fps t o hf
          · exact ih rest hc o ho'

lemma collectOptions_zero : collectOptions 0 standard_fps = .error PyErr.zeroDivision := by
  norm_num [collectOptions, fpsOptionFor, standard_fps]

lemma collectOptions_ok_ne_zero (fps : ℚ) (opts : List FpsOption)
    (h : collectOptions fps standard_fps = .ok opts) : fps ≠ 0 := by
  rintro rfl
  rw [collectOptions_zero] at h
  cases h

lemma fpsOptionFor_ne_error (fps t : ℚ) (h : fps ≠ 0) :
    ∃ o, fpsOptionFor fps t = .ok o := by
  simp only [fpsOptionFor]
  split_ifs with hgt hz h2 h4 <;> first | exact absurd hz h | exact ⟨_, rfl⟩

lemma collectOptions_ok (fps : ℚ) (h : fps ≠ 0) :
    ∀ L, ∃ opts, collectOptions fps L = .ok opts := by
  intro L
  induction L with
  | nil => exact ⟨[], rfl⟩
  | cons t ts ih =>
    obtain ⟨o1, h1⟩ := fpsOptionFor_ne_error fps t h
    obtain ⟨rest, h2⟩ := ih
    rcases o1 with _ | x
    · exact ⟨rest, by rw [collectOptions, h1, h2]⟩
    · exact ⟨x :: rest, by rw [collectOptions, h1, h2]⟩

lemma dedupOpts_mem :
    ∀ (seen : List (ℚ × ℕ)) (L : List FpsOption) (o : FpsOption),
      o ∈ dedupOpts seen L → o ∈ L := by
  intro seen L
  induction L generalizing seen with
  | nil => intro o h; simp [dedupOpts] at h
  | cons x xs ih =>
    intro o h
    rw [dedupOpts] at h
    split_ifs at h with hk
    · exact List.mem_cons_of_mem _ (ih seen o h)
    · rcases List.mem_cons.mp h with rfl | h'
      · exact List.mem_cons_self _ _
      · exact List.mem_cons_of_mem _ (ih _ o h')

lemma dedupOpts_key_not_seen :
    ∀ (seen : List (ℚ × ℕ)) (L : List FpsOption) (o : FpsOption),
      o ∈ dedupOpts seen L → optKey o ∉ seen := by
  intro seen L
  induction L generalizing seen with
  | nil => intro o h; simp [dedupOpts] at h
  | cons x xs ih =>
    intro o h
    rw [dedupOpts] at h
    split_ifs at h with hk
    · exact ih seen o h
    · rcases List.mem_cons.mp h with rfl | h'
      · exact hk
      · intro hmem
        exact ih _ o h' (List.mem_cons_of_mem _ hmem)

lemma dedupOpts_pairwise :
    ∀ (seen : List (ℚ × ℕ)) (L : List FpsOption),
      (dedupOpts seen L).Pairwise (fun a b => optKey a ≠ optKey b) := by
  intro seen L
  induction L generalizing seen with
  | nil => exact List.Pairwise.nil
  | cons x xs ih =>
    rw [dedupOpts]
    split_ifs with hk
    · exact ih seen
    · refine List.Pairwise.cons ?_ (ih _)
      intro b hb he
      exact dedupOpts_key_not_seen _ _ _ hb (by rw [← he]; exact List.mem_cons_self _ _)

lemma get_fps_options_eq (fps : ℚ) (l : List FpsOption)
    (h : get_fps_options fps = .ok l) :
    ∃ opts, collectOptions fps standard_fps = .ok opts ∧
      l = List.insertionSort optLe (dedupOpts [] opts) := by
  unfold get_fps_options at h
  rcases hc : collectOptions fps standard_fps with e | opts <;> rw [hc] at h
  · cases h
  · exact ⟨opts, rfl, (Except.ok.inj h).symm⟩

lemma mem_get_fps_options (fps : ℚ) (l : List FpsOption)
    (hok : get_fps_options fps = .ok l) (o : FpsOption) (ho : o ∈ l) :
    o.actual = fps * o.scale ∧ (o.scale = 2 ∨ o.scale = 4 ∨ o.scale = 8) ∧
      (o.exact = true ∨ o.actual ≤ 240) := by
  obtain ⟨opts, hc, hl⟩ := get_fps_options_eq fps l hok
  rw [hl] at ho
  have ho2 : o ∈ dedupOpts [] opts := (List.perm_insertionSort optLe _).mem_iff.mp ho
  exact collectOptions_mem fps standard_fps opts hc o (dedupOpts_mem [] opts o ho2)

lemma eval_fps_30 : get_fps_options 30 = Except.ok
    [{ target := 60, actual := 60, scale := 2, exact := false },
     { target := 120, actual := 120, scale := 4, exact := false },
     { target := 240, actual := 240, scale := 8, exact := false }] := by
  norm_num [get_fps_options, standard_fps, collectOptions, fpsOptionFor, mkOpt,
    dedupOpts, optKey, optLe, List.insertionSort, List.orderedInsert, abs_sub_lt_iff, abs_lt]

lemma eval_fps_24 : get_fps_options 24 = Except.ok
    [{ target := 48, actual := 48, scale := 2, exact := false },
     { target := 96, actual := 96, scale := 4, exact := false },
     { target := 192, actual := 192, scale := 8, exact := false }] := by
  norm_num [get_fps_options, standard_fps, collectOptions, fpsOptionFor, mkOpt,
    dedupOpts, optKey, optLe, List.insertionSort, List.orderedInsert, abs_sub_lt_iff, abs_lt]

lemma eval_fps_2997 : get_fps_options (2997 / 100) = Except.ok
    [{ target := 2997 / 50, actual := 2997 / 50, scale := 2, exact := false },
     { target := 2997 / 25, actual := 2997 / 25, scale := 4, exact := false },
     { target := 5994 / 25, actual := 5994 / 25, scale := 8, exact := false }] := by
  norm_num [get_fps_options, standard_fps, collectOptions, fpsOptionFor, mkOpt,
    dedupOpts, optKey, optLe, List.insertionSort, List.orderedInsert, abs_sub_lt_iff, abs_lt]

lemma eval_fps_1203 : get_fps_options (1203 / 10) = Except.ok
    [{ target := 240, actual := 1203 / 5, scale := 2, exact := true }] := by
  norm_num [get_fps_options, standard_fps, collectOptions, fpsOptionFor, mkOpt,
    dedupOpts, optKey, optLe, List.insertionSort, List.orderedInsert, abs_sub_lt_iff, abs_lt]

/-! ## Claims C1, C2, C6, C7 -/

/-- C1 (amended): for every `current_fps` strictly between 0 and 240, every
option returned by `get_fps_options` has `actual = current_fps * scale` and
`scale ∈ {2, 4, 8}`; `actual ≤ 240` holds whenever the option is inexact,
while an exact option may exceed 240 (by less than 1). -/
theorem c1_option_invariants (fps : ℚ) (_h0 : 0 < fps) (_h240 : fps < 240)
    (l : List FpsOption) (hok : get_fps_options fps = Except.ok l) :
    ∀ o ∈ l, o.actual = fps * o.scale ∧ (o.scale = 2 ∨ o.scale = 4 ∨ o.scale = 8) ∧
      (o.exact = true ∨ o.actual ≤ 240) :=
  fun o ho => mem_get_fps_options fps l hok o ho

/-- Witness for C1 at `current_fps = 30`. -/
theorem c1_witness :
    ∃ l, get_fps_options 30 = Except.ok l ∧
      ∀ o ∈ l, o.actual = 30 * o.scale ∧ (o.scale = 2 ∨ o.scale = 4 ∨ o.scale = 8) ∧
        (o.exact = true ∨ o.actual ≤ 240) :=
  ⟨[{ target := 60, actual := 60, scale := 2, exact := false },
    { target := 120, actual := 120, scale := 4, exact := false },
    { target := 240, actual := 240, scale := 8, exact := false }], eval_fps_30,
   c1_option_invariants 30 (by norm_num) (by norm_num) _ eval_fps_30⟩

/-- C1 fails as stated: at `current_fps = 120.3` (inside `(0, 240)`) the
returned list contains an exact option with `actual = 240.6 > 240`. -/
theorem c1_counterexample :
    ¬ (∀ fps : ℚ, 0 < fps → fps < 240 → ∀ l, get_fps_options fps = Except.ok l →
        ∀ o ∈ l, o.actual = fps * o.scale ∧ (o.scale = 2 ∨ o.scale = 4 ∨ o.scale = 8) ∧
          o.actual ≤ 240) := by
  intro h
  have h2 := h (1203 / 10) (by norm_num) (by norm_num) _ eval_fps_1203
      { target := 240, actual := 1203 / 5, scale := 2, exact := true } (by simp)
  have h3 : ((1203 : ℚ) / 5) ≤ 240 := h2.2.2
  norm_num at h3

/-- C2 fails as stated: `get_fps_options 30` contains no option with
`actual = 60`, `scale = 2` and `exact = true` — the exact target-60 option
is discarded by first-occurrence deduplication in favour of the inexact
option generated earlier from target 48. -/
theorem c2_counterexample :
    ¬ (∃ l, get_fps_options 30 = Except.ok l ∧
        ∃ o ∈ l, o.actual = 60 ∧ o.scale = 2 ∧ o.exact = true) := by
  rintro ⟨l, hl, o, ho, h60, hsc, hex⟩
  have hc := eval_fps_30
  rw [hl] at hc
  have hl' := Except.ok.inj hc
  subst hl'
  simp only [List.mem_cons, List.not_mem_nil, or_false] at ho
  rcases ho with rfl | rfl | rfl <;> simp at hex

/-- C2 (amended): `get_fps_options 30` contains the option with
`actual = 60`, `scale = 2` but `exact = false` (the exact target-60
duplicate is dropped by first-occurrence dedup), and the option with
`actual = 120`, `scale = 4` (also `exact = false`); `get_fps_options 24`
contains `actual = 48`, `scale = 2`, `exact = false`;
`get_fps_options 29.97` contains an option whose `actual` is within 1.0
of 60 with `scale = 2` but `exact = false`, and no `exact = true` option
at all. -/
theorem c2_concrete_options :
    (∃ l, get_fps_options 30 = Except.ok l ∧
      ({ target := 60, actual := 60, scale := 2, exact := false } : FpsOption) ∈ l ∧
      ({ target := 120, actual := 120, scale := 4, exact := false } : FpsOption) ∈ l) ∧
    (∃ l, get_fps_options 24 = Except.ok l ∧
      ({ target := 48, actual := 48, scale := 2, exact := false } : FpsOption) ∈ l) ∧
    (∃ l, get_fps_options (2997 / 100) = Except.ok l ∧
      (∃ o ∈ l, |o.actual - 60| < 1 ∧ o.scale = 2 ∧ o.exact = false) ∧
      ∀ o ∈ l, o.exact = false) := by
  refine ⟨⟨_, eval_fps_30, by simp, by simp⟩, ⟨_, eval_fps_24, by simp⟩,
    ⟨_, eval_fps_2997, ⟨{ target := 2997 / 50, actual := 2997 / 50, scale := 2, exact := false },
      by simp, by norm_num [abs_lt], rfl, rfl⟩, ?_⟩⟩
  intro o ho
  simp only [List.mem_cons, List.not_mem_nil, or_false] at ho
  rcases ho with rfl | rfl | rfl <;> rfl

/-- C6: for every `current_fps` on which `get_fps_options` returns a list,
that list has no two options with the same `(actual, scale)` pair and is
sorted strictly ascending by `actual`. -/
theorem c6_nodup_sorted (fps : ℚ) (l : List FpsOption)
    (hok : get_fps_options fps = Except.ok l) :
    l.Pairwise (fun a b => optKey a ≠ optKey b) ∧
      l.Pairwise (fun a b => a.actual < b.actual) := by
  obtain ⟨opts, hc, hl⟩ := get_fps_options_eq fps l hok
  have hfz : fps ≠ 0 := collectOptions_ok_ne_zero fps opts hc
  have hperm : List.Perm (List.insertionSort optLe (dedupOpts [] opts)) (dedupOpts [] opts) :=
    List.perm_insertionSort optLe _
  have hkey : l.Pairwise (fun a b => optKey a ≠ optKey b) := by
    rw [hl]
    exact (hperm.pairwise_iff (fun h he => h he.symm)).mpr (dedupOpts_pairwise [] opts)
  have hsorted : l.Pairwise optLe := by
    rw [hl]
    exact List.sorted_insertionSort optLe _
  refine ⟨hkey, ?_⟩
  refine (hsorted.and hkey).imp_of_mem ?_
  intro a b ha hb hab
  have hA := (mem_get_fps_options fps l hok a ha).1
  have hB := (mem_get_fps_options fps l hok b hb).1
  refine lt_of_le_of_ne hab.1 ?_
  intro heq
  have hsc : (a.scale : ℚ) = b.scale := by
    have := hA.symm.trans (heq.trans hB)
    exact mul_left_cancel₀ hfz this
  exact hab.2 (Prod.ext heq (Nat.cast_injective hsc))

/-- Witness for C6 at `current_fps = 30`. -/
theorem c6_witness :
    ∃ l, get_fps_options 30 = Except.ok l ∧
      l.Pairwise (fun a b => optKey a ≠ optKey b) ∧
      l.Pairwise (fun a b => a.actual < b.actual) :=
  ⟨_, eval_fps_30, c6_nodup_sorted 30 _ eval_fps_30⟩

/-- C7 fails as stated: at `current_fps = 0` the code raises
`ZeroDivisionError` (at `target / current_fps`) instead of returning a
list. -/
theorem c7_counterexample : get_fps_options 0 = Except.error PyErr.zeroDivision := by
  unfold get_fps_options
  rw [collectOptions_zero]

/-- C7 (amended): `get_fps_options` raises no exception and returns a list
for every `current_fps` other than 0; at 0 it raises `ZeroDivisionError`. -/
theorem c7_total_except_zero (fps : ℚ) (h : fps ≠ 0) :
    ∃ l, get_fps_options fps = Except.ok l := by
  obtain ⟨opts, hc⟩ := collectOptions_ok fps h standard_fps
  exact ⟨_, by unfold get_fps_options; rw [hc]⟩

/-- Witness for C7 at `current_fps = 30`. -/
theorem c7_witness : (30 : ℚ) ≠ 0 ∧ ∃ l, get_fps_options 30 = Except.ok l :=
  ⟨by norm_num, c7_total_except_zero 30 (by norm_num)⟩

/-! ## Claim C9: frame-rate parsing in `get_video_info` -/

lemma parseFps_rational (num den : ℚ) :
    parseFps (some [num, den]) = .ok (if den ≠ 0 then num / den else 30) := by
  norm_num [parseFps]

lemma parseFps_bare (x : ℚ) : parseFps (some [x]) = .ok x := by
  norm_num [parseFps]

lemma parseFps_absent : parseFps none = .ok 30 := by
  norm_num [parseFps]

/-- C9 (amended): whenever `get_video_info` returns a descriptor, the frame
rate is parsed from the first video stream's `r_frame_rate` field as
`num/den` (falling back to 30.0 when `den` is 0, or when the field is
absent), and parsed directly when the field is a bare number; the frame
rate is strictly positive whenever the parsed components are positive —
but not in general (`"0/1"` yields frame rate 0). -/
theorem c9_fps_parsing (streams : List StreamRec) (info : VideoInfo)
    (hok : get_video_info streams = Except.ok info) :
    ∃ v, streams.find? (fun s => s.codec_type == "video") = some v ∧
      (v.r_frame_rate = none → info.fps = 30) ∧
      (∀ x, v.r_frame_rate = some [x] → info.fps = x) ∧
      (∀ num den, v.r_frame_rate = some [num, den] →
        info.fps = if den ≠ 0 then num / den else 30) ∧
      (∀ num den, v.r_frame_rate = some [num, den] → 0 < num → 0 < den → 0 < info.fps) ∧
      (∀ x, v.r_frame_rate = some [x] → 0 < x → 0 < info.fps) ∧
      (v.r_frame_rate = none → 0 < info.fps) := by
  simp only [get_video_info] at hok
  rcases hv : streams.find? (fun s => s.codec_type == "video") with _ | v <;>
    simp only [hv] at hok
  · cases hok
  · rcases hp : parseFps v.r_frame_rate with e | fps <;> simp only [hp] at hok
    · cases hok
    · have hinfo : info.fps = fps := by rw [← Except.ok.inj hok]
      refine ⟨v, hv, ?_, ?_, ?_, ?_, ?_, ?_⟩
      · intro hf
        rw [hf, parseFps_absent] at hp
        rw [hinfo, ← Except.ok.inj hp]
      · intro x hf
        rw [hf, parseFps_bare] at hp
        rw [hinfo, ← Except.ok.inj hp]
      · intro num den hf
        rw [hf, parseFps_rational] at hp
        rw [hinfo, ← Except.ok.inj hp]
      · intro num den hf hnum hden
        rw [hf, parseFps_rational] at hp
        rw [hinfo, ← Except.ok.inj hp]
        simp only [ne_eq, hden.ne', not_false_eq_true, if_true]
        exact div_pos hnum hden
      · intro x hf hx
        rw [hf, parseFps_bare] at hp
        rw [hinfo, ← Except.ok.inj hp]
        exact hx
      · intro hf
        rw [hf, parseFps_absent] at hp
        rw [hinfo, ← Except.ok.inj hp]
        norm_num

lemma videoEqVideo : ("video" == "video") = true := rfl

lemma videoNeAudio : ("video" == "audio") = false := rfl

lemma eval_video_info (r : Option (List ℚ)) (fps : ℚ) (h : parseFps r = .ok fps) :
    get_video_info [{ codec_type := "video", r_frame_rate := r }] =
      Except.ok { fps := fps, has_audio := false } := by
  simp only [get_video_info, List.find?, videoEqVideo, videoNeAudio, h, Option.isSome]

/-- Witness for C9: a video stream with `r_frame_rate = "30/1"` yields a
descriptor with frame rate `30 > 0`. -/
theorem c9_witness :
    ∃ info, get_video_info [{ codec_type := "video", r_frame_rate := some [30, 1] }] =
      Except.ok info ∧ 0 < info.fps := by
  have hok := eval_video_info (some [30, 1]) (30 / 1) (by norm_num [parseFps])
  obtain ⟨v, hv, _, _, _, hpos2, _, _⟩ := c9_fps_parsing _ _ hok
  have hv' : v = { codec_type := "video", r_frame_rate := some [30, 1] } := by
    simp only [List.find?, videoEqVideo] at hv
    exact (Option.some.inj hv).symm
  exact ⟨_, hok, hpos2 30 1 (by rw [hv']) (by norm_num) (by norm_num)⟩

/-- C9 fails as stated: a video stream reporting `r_frame_rate = "0/1"`
produces a descriptor whose frame rate is 0, not strictly positive. -/
theorem c9_counterexample :
    ∃ info, get_video_info [{ codec_type := "video", r_frame_rate := some [0, 1] }] =
      Except.ok info ∧ ¬ 0 < info.fps := by
  refine ⟨{ fps := 0, has_audio := false }, ?_, by norm_num⟩
  have h0 : parseFps (some [0, 1]) = .ok 0 := by norm_num [parseFps]
  exact eval_video_info (some [0, 1]) 0 h0

/-! ## Lemmas about the pipeline model -/

lemma interpLoop_spec (sb : Bool) (w : World) (e : ℕ) :
    ∀ (L : List (Fin 3)) (s : St),
      (interpLoop sb w e L s).2.cwd = s.cwd ∧
      (interpLoop sb w e L s).2.tempDirExists = s.tempDirExists ∧
      (interpLoop sb w e L s).2.stagesRun = s.stagesRun ∧
      (∃ new, (interpLoop sb w e L s).2.invocations = s.invocations ++ new ∧
        ∀ inv ∈ new, inv.cwd = s.cwd ∧ inv.kind = ProcKind.rifeScript) ∧
      ((∃ n, (interpLoop sb w e L s).1 = .ok n) ∨
        (interpLoop sb w e L s).1 = .error (.runtimeError interpFailMsg) ∨
        (sb = false ∧ (interpLoop sb w e L s).1 = .error (.nameError "sys"))) := by
  intro L
  induction L with
  | nil =>
    intro s
    rw [interpLoop]
    exact ⟨rfl, rfl, rfl, ⟨[], by simp, by simp⟩, Or.inr (Or.inl rfl)⟩
  | cons i rest ih =>
    intro s
    rw [interpLoop]
    by_cases hex : w.scriptExists i
    · simp only [hex, if_true]
      by_cases hsb : sb = true
      · subst hsb
        simp only [if_true]
        split_ifs with h1 h2
        · refine ⟨by simp [runScript], by simp [runScript], by simp [runScript],
            ⟨[{ kind := .rifeScript, cmd := rifeCmd i e true, cwd := s.cwd }],
              by simp [runScript], by simp⟩, Or.inl ⟨_, rfl⟩⟩
        · refine ⟨by simp [runScript], by simp [runScript], by simp [runScript],
            ⟨[{ kind := .rifeScript, cmd := rifeCmd i e true, cwd := s.cwd },
              { kind := .rifeScript, cmd := rifeCmd i e false, cwd := s.cwd }],
              by simp [runScript], by simp⟩, Or.inl ⟨_, rfl⟩⟩
        · obtain ⟨ha, hb, hc, ⟨new, hd, he⟩, hf⟩ :=
            ih (runScript w i e false (runScript w i e true s).2).2
          refine ⟨?_, ?_, ?_, ?_, ?_⟩
          · rw [ha]; simp [runScript]
          · rw [hb]; simp [runScript]
          · rw [hc]; simp [runScript]
          · refine ⟨{ kind := .rifeScript, cmd := rifeCmd i e true, cwd := s.cwd } ::
              { kind := .rifeScript, cmd := rifeCmd i e false, cwd := s.cwd } :: new, ?_, ?_⟩
            · rw [hd]
              simp [runScript]
            · intro inv hinv
              rcases List.mem_cons.mp hinv with rfl | hinv
              · exact ⟨rfl, rfl⟩
              · rcases List.mem_cons.mp hinv with rfl | hinv
                · exact ⟨rfl, rfl⟩
                · have h9 := he inv hinv
                  simpa [runScript] using h9
          · rcases hf with h | h | ⟨h8, -⟩
            · exact Or.inl h
            · exact Or.inr (Or.inl h)
            · exact absurd h8 (by simp)
      · have hsb' : sb = false := by simpa using hsb
        subst hsb'
        simp only [Bool.false_eq_true, if_false]
        exact ⟨trivial, trivial, trivial, ⟨[], by simp, by simp⟩,
          Or.inr (Or.inr ⟨trivial, trivial⟩)⟩
    · have hex' : w.scriptExists i = false := by simpa using hex
      simp only [hex', Bool.false_eq_true, if_false]
      exact ih s

lemma interpolate_spec (sb : Bool) (w : World) (scale : ℕ) (s : St) :
    (interpolate sb w scale s).2.cwd = s.cwd ∧
    (interpolate sb w scale s).2.tempDirExists = s.tempDirExists ∧
    (interpolate sb w scale s).2.stagesRun = s.stagesRun ∧
    (∃ new, (interpolate sb w scale s).2.invocations = s.invocations ++ new ∧
      ∀ inv ∈ new, inv.cwd = rifeDirPath ∧ inv.kind = ProcKind.rifeScript) ∧
    ((∃ n, (interpolate sb w scale s).1 = .ok n) ∨
      (interpolate sb w scale s).1 = .error (.runtimeError interpFailMsg) ∨
      (sb = false ∧ (interpolate sb w scale s).1 = .error (.nameError "sys"))) := by
  obtain ⟨h1, h2, h3, ⟨new, h4, h5⟩, h6⟩ :=
    interpLoop_spec sb w (Nat.log2 scale) [0, 1, 2] { s with cwd := rifeDirPath }
  refine ⟨by simp [interpolate], by simpa [interpolate] using h2,
    by simpa [interpolate] using h3, ⟨new, by simpa [interpolate] using h4, ?_⟩,
    by simpa [interpolate] using h6⟩
  intro inv hinv
  simpa using h5 inv hinv

/-- C10: `RIFEInterpolator.interpolate` restores the original working
directory on every exit path (success or exception), and every subprocess
invocation it issues runs with the working directory switched to the RIFE
root. -/
theorem c10_interpolate_cwd (sb : Bool) (w : World) (scale : ℕ) (s : St) :
    (interpolate sb w scale s).2.cwd = s.cwd ∧
    ∃ new, (interpolate sb w scale s).2.invocations = s.invocations ++ new ∧
      ∀ inv ∈ new, inv.cwd = rifeDirPath := by
  obtain ⟨h1, _, _, ⟨new, h4, h5⟩, _⟩ := interpolate_spec sb w scale s
  exact ⟨h1, new, h4, fun inv hinv => (h5 inv hinv).1⟩

/-- The encode-stage invocation as recorded by `encode_video` when called
from the pipeline (working directory is the original one). -/
def encodeInvocation (tfps : ℚ) (crf : ℕ) (audio : Option String) : Invocation :=
  { kind := ProcKind.ffmpegEncode, cmd := encodeCmd interpDirPath tfps crf audio,
    cwd := originalCwd }

/-- Exit-path enumeration for the pipeline body run from `initSt`:
either an error before any stage (with empty stage and invocation
traces), or an error at frame extraction / interpolation / encoding with
exactly the stages up to the failing one recorded, or success with all
four stages recorded.  In the two cases that reach encoding, the last
invocation is the encode command, built without an audio input when no
audio file was produced. -/
lemma pipelineBody_cases (sb : Bool) (w : World) (scale : ℕ) (tfps : ℚ) (crf : ℕ) :
    ∀ r s, pipelineBody sb w scale tfps crf initSt = (r, s) →
      ((∃ e, r = Except.error e ∧
          (e = PyErr.runtimeError ffmpegMissingMsg ∨ e = PyErr.runtimeError rifeMissingMsg ∨
           e = PyErr.runtimeError modelsMissingMsg ∨ e = PyErr.nameError "sys") ∧
          s.stagesRun = [] ∧ s.invocations = []) ∨
       (sb = true ∧ r = Except.error (PyErr.runtimeError extractFailMsg) ∧
          s.stagesRun = [Stage.extractFrames]) ∨
       (sb = true ∧ r = Except.error (PyErr.runtimeError interpFailMsg) ∧
          s.stagesRun = [Stage.extractFrames, Stage.interpolate]) ∨
       (sb = true ∧ (r = Except.error (PyErr.runtimeError encodeFailMsg) ∨ r = Except.ok true) ∧
          s.stagesRun = allStages ∧
          ∃ pre, s.invocations = pre ++ [encodeInvocation tfps crf
            (if w.audioFileProduced = true then some audioPath else none)])) := by
  intro r s h
  by_cases hff : w.ffmpegFound = true
  case neg =>
    have hff' : w.ffmpegFound = false := by simpa using hff
    simp only [pipelineBody, mkVideoProcessor, hff', Bool.false_eq_true, if_false] at h
    obtain ⟨h1, h2⟩ := Prod.mk.inj h
    exact Or.inl ⟨_, h1.symm, Or.inl rfl, by rw [← h2]; rfl, by rw [← h2]; rfl⟩
  case pos =>
  simp only [pipelineBody, mkVideoProcessor, hff, if_true] at h
  by_cases hrd : w.rifeDirExists = true
  case neg =>
    have hrd' : w.rifeDirExists = false := by simpa using hrd
    simp only [mkRIFEInterpolator, hrd', Bool.false_eq_true, if_false] at h
    obtain ⟨h1, h2⟩ := Prod.mk.inj h
    exact Or.inl ⟨_, h1.symm, Or.inr (Or.inl rfl), by rw [← h2]; rfl, by rw [← h2]; rfl⟩
  case pos =>
  simp only [mkRIFEInterpolator, hrd, if_true] at h
  by_cases hmd : w.modelsDirExists = true
  case neg =>
    have hmd' : w.modelsDirExists = false := by simpa using hmd
    simp only [hmd', Bool.false_eq_true, if_false] at h
    obtain ⟨h1, h2⟩ := Prod.mk.inj h
    exact Or.inl ⟨_, h1.symm, Or.inr (Or.inr (Or.inl rfl)), by rw [← h2]; rfl, by rw [← h2]; rfl⟩
  case pos =>
  simp only [hmd, if_true] at h
  by_cases hsb : sb = true
  case neg =>
    have hsb' : sb = false := by simpa using hsb
    subst hsb'
    simp only [Bool.false_eq_true, if_false] at h
    obtain ⟨h1, h2⟩ := Prod.mk.inj h
    exact Or.inl ⟨_, h1.symm, Or.inr (Or.inr (Or.inr rfl)), by rw [← h2]; rfl, by rw [← h2]; rfl⟩
  case pos =>
  subst hsb
  simp only [if_true] at h
  by_cases hee : w.extractExitZero = true
  case neg =>
    have hee' : w.extractExitZero = false := by simpa using hee
    simp only [extract_frames, hee', Bool.false_eq_true, if_false] at h
    obtain ⟨h1, h2⟩ := Prod.mk.inj h
    refine Or.inr (Or.inl ⟨rfl, h1.symm, ?_⟩)
    rw [← h2]
    simp [initSt]
  case pos =>
  simp only [extract_frames, hee, if_true] at h
  set S3 : St :=
    { cwd := initSt.cwd, tempDirExists := initSt.tempDirExists,
      stagesRun := initSt.stagesRun ++ [Stage.extractFrames] ++ [Stage.interpolate],
      outPngs := initSt.outPngs,
      invocations := initSt.invocations ++
        [{ kind := ProcKind.ffmpegExtract, cmd := extractCmd, cwd := initSt.cwd }] } with hS3
  obtain ⟨ha, hb, hc, ⟨new, hd, he⟩, hf⟩ := interpolate_spec true w scale S3
  split at h
  case _ e1 s4 heq =>
    rw [heq] at hc hf
    obtain ⟨h1, h2⟩ := Prod.mk.inj h
    rcases hf with ⟨n, hn⟩ | hfail | ⟨hcontra, -⟩
    · exact absurd hn (by simp)
    · simp only at hfail
      have he1 : e1 = PyErr.runtimeError interpFailMsg := Except.error.inj hfail
      refine Or.inr (Or.inr (Or.inl ⟨rfl, by rw [← h1, he1], ?_⟩))
      rw [← h2]
      simp only at hc
      rw [hc]
      simp [initSt]
    · exact absurd hcontra (by simp)
  case _ n1 s4 heq =>
    rw [heq] at ha hc hd
    simp only at ha hc hd
    simp only [extract_audio] at h
    by_cases hen : w.encodeExitZero = true
    case pos =>
      simp only [encode_video, hen, if_true] at h
      obtain ⟨h1, h2⟩ := Prod.mk.inj h
      refine Or.inr (Or.inr (Or.inr ⟨rfl, Or.inr h1.symm, ?_, ?_⟩))
      · rw [← h2]
        simp only [List.append_assoc]
        rw [hc]
        simp [initSt, allStages]
      · refine ⟨s4.invocations ++ [⟨ProcKind.ffmpegAudio, audioCmd, s4.cwd⟩], ?_⟩
        rw [← h2]
        simp only [encodeInvocation, List.append_assoc]
        congr 1
        simp [ha, initSt]
    case neg =>
      have hen' : w.encodeExitZero = false := by simpa using hen
      simp only [encode_video, hen', Bool.false_eq_true, if_false] at h
      obtain ⟨h1, h2⟩ := Prod.mk.inj h
      refine Or.inr (Or.inr (Or.inr ⟨rfl, Or.inl h1.symm, ?_, ?_⟩))
      · rw [← h2]
        simp only [List.append_assoc]
        rw [hc]
        simp [initSt, allStages]
      · refine ⟨s4.invocations ++ [⟨ProcKind.ffmpegAudio, audioCmd, s4.cwd⟩], ?_⟩
        rw [← h2]
        simp only [encodeInvocation, List.append_assoc]
        congr 1
        simp [ha, initSt]

lemma process_video_fst (sb : Bool) (w : World) (scale : ℕ) (tfps : ℚ) (crf : ℕ) :
    (process_video sb w scale tfps crf).1 = (pipelineBody sb w scale tfps crf initSt).1 := rfl

lemma process_video_stagesRun (sb : Bool) (w : World) (scale : ℕ) (tfps : ℚ) (crf : ℕ) :
    (process_video sb w scale tfps crf).2.stagesRun =
      (pipelineBody sb w scale tfps crf initSt).2.stagesRun := rfl

lemma process_video_invocations (sb : Bool) (w : World) (scale : ℕ) (tfps : ℚ) (crf : ℕ) :
    (process_video sb w scale tfps crf).2.invocations =
      (pipelineBody sb w scale tfps crf initSt).2.invocations := rfl

/-- C5: on every exit path of `process_video` the temporary directory is
removed, the pipeline body's outcome (value or exception) is passed to
the caller unchanged by the cleanup, and the recorded stage trace stops
at the failing stage: an exception before the stages leaves no stage
recorded, an extraction failure leaves only the extraction stage, an
interpolation failure leaves extraction and interpolation, and only an
encoding failure or success reaches all four stages. -/
theorem c5_cleanup_and_abort (sb : Bool) (w : World) (scale : ℕ) (tfps : ℚ) (crf : ℕ) :
    (process_video sb w scale tfps crf).2.tempDirExists = false ∧
    (process_video sb w scale tfps crf).1 = (pipelineBody sb w scale tfps crf initSt).1 ∧
    ((∃ e, (process_video sb w scale tfps crf).1 = Except.error e ∧
        (e = PyErr.runtimeError ffmpegMissingMsg ∨ e = PyErr.runtimeError rifeMissingMsg ∨
         e = PyErr.runtimeError modelsMissingMsg ∨ e = PyErr.nameError "sys") ∧
        (process_video sb w scale tfps crf).2.stagesRun = [] ∧
        (process_video sb w scale tfps crf).2.invocations = []) ∨
     (sb = true ∧
        (process_video sb w scale tfps crf).1 = Except.error (PyErr.runtimeError extractFailMsg) ∧
        (process_video sb w scale tfps crf).2.stagesRun = [Stage.extractFrames]) ∨
     (sb = true ∧
        (process_video sb w scale tfps crf).1 = Except.error (PyErr.runtimeError interpFailMsg) ∧
        (process_video sb w scale tfps crf).2.stagesRun =
          [Stage.extractFrames, Stage.interpolate]) ∨
     (sb = true ∧
        ((process_video sb w scale tfps crf).1 = Except.error (PyErr.runtimeError encodeFailMsg) ∨
         (process_video sb w scale tfps crf).1 = Except.ok true) ∧
        (process_video sb w scale tfps crf).2.stagesRun = allStages ∧
        ∃ pre, (process_video sb w scale tfps crf).2.invocations = pre ++ [encodeInvocation tfps crf
          (if w.audioFileProduced = true then some audioPath else none)])) :=
  ⟨rfl, rfl,
    pipelineBody_cases sb w scale tfps crf (pipelineBody sb w scale tfps crf initSt).1
      (pipelineBody sb w scale tfps crf initSt).2 rfl⟩

/-- C3: with core.py's actual module environment (`sys` unbound), every run
of `process_video` raises — either a `RuntimeError` from a constructor
check or the `NameError` for `sys` — before any stage runs: no frame is
extracted, no subprocess is invoked, and `True` is never returned. -/
theorem c3_always_raises_before_extraction (w : World) (scale : ℕ) (tfps : ℚ) (crf : ℕ) :
    ∃ e, (process_video coreSysBound w scale tfps crf).1 = Except.error e ∧
      (e = PyErr.nameError "sys" ∨ ∃ msg, e = PyErr.runtimeError msg) ∧
      (process_video coreSysBound w scale tfps crf).2.stagesRun = [] ∧
      (process_video coreSysBound w scale tfps crf).2.invocations = [] := by
  have hcases := pipelineBody_cases coreSysBound w scale tfps crf
    (pipelineBody coreSysBound w scale tfps crf initSt).1
    (pipelineBody coreSysBound w scale tfps crf initSt).2 rfl
  have hsb : coreSysBound = false := rfl
  rcases hcases with ⟨e, he, hkind, hsr, hinv⟩ | ⟨hc, -⟩ | ⟨hc, -⟩ | ⟨hc, -⟩
  · refine ⟨e, ?_, ?_, ?_, ?_⟩
    · rw [process_video_fst]
      exact he
    · rcases hkind with rfl | rfl | rfl | rfl
      · exact Or.inr ⟨_, rfl⟩
      · exact Or.inr ⟨_, rfl⟩
      · exact Or.inr ⟨_, rfl⟩
      · exact Or.inl rfl
    · rw [process_video_stagesRun]
      exact hsr
    · rw [process_video_invocations]
      exact hinv
  all_goals rw [hsb] at hc
  all_goals exact absurd hc (by simp)

/-- C8: `VideoProcessor.extract_audio` raises no exception and ignores the
tool's exit status — it returns the output path exactly when the output
file exists, `None` otherwise; and on any run whose audio stage executed
with no audio file produced, the encode stage still runs and its ffmpeg
invocation is the no-audio command. -/
theorem c8_audio_optional (sb : Bool) (w : World) (scale : ℕ) (tfps : ℚ) (crf : ℕ) :
    (∀ s : St,
      (extract_audio w s).1 = if w.audioFileProduced = true then some audioPath else none) ∧
    (w.audioFileProduced = false →
      Stage.extractAudio ∈ (process_video sb w scale tfps crf).2.stagesRun →
      Stage.encode ∈ (process_video sb w scale tfps crf).2.stagesRun ∧
      ∃ inv ∈ (process_video sb w scale tfps crf).2.invocations,
        inv.kind = ProcKind.ffmpegEncode ∧ inv.cmd = encodeCmd interpDirPath tfps crf none) := by
  refine ⟨fun s => rfl, ?_⟩
  intro haud hmem
  rw [process_video_stagesRun] at hmem
  have hcases := pipelineBody_cases sb w scale tfps crf
    (pipelineBody sb w scale tfps crf initSt).1
    (pipelineBody sb w scale tfps crf initSt).2 rfl
  rcases hcases with ⟨e, he, hkind, hsr, hinv⟩ | ⟨hsb, hr, hsr⟩ | ⟨hsb, hr, hsr⟩ |
    ⟨hsb, hr, hsr, pre, hpre⟩
  · rw [hsr] at hmem
    simp at hmem
  · rw [hsr] at hmem
    simp at hmem
  · rw [hsr] at hmem
    simp at hmem
  · constructor
    · rw [process_video_stagesRun, hsr]
      simp [allStages]
    · refine ⟨encodeInvocation tfps crf none, ?_, rfl, rfl⟩
      rw [process_video_invocations, hpre, haud]
      simp

/-- A world in which every external effect behaves: all executables and
directories are present, every subprocess exits zero, the first candidate
script exists and writes output frames, and encoding succeeds; no audio
track is produced. -/
def happyWorld : World :=
  { ffmpegFound := true
    rifeDirExists := true
    modelsDirExists := true
    extractExitZero := true
    extractedFrames := 10
    scriptExists := fun _ => true
    runExitZero := fun _ _ => true
    runPngsWritten := fun _ _ => 20
    audioExitZero := true
    audioFileProduced := false
    encodeExitZero := true }

/-- Witness for C8: in `happyWorld` (no audio file produced) run with the
`sys` name bound, the audio stage runs, the encode stage still runs, and
the encode command carries no audio input. -/
theorem c8_witness :
    Stage.encode ∈ (process_video true happyWorld 2 60 18).2.stagesRun ∧
    ∃ inv ∈ (process_video true happyWorld 2 60 18).2.invocations,
      inv.kind = ProcKind.ffmpegEncode ∧ inv.cmd = encodeCmd interpDirPath 60 18 none :=
  (c8_audio_optional true happyWorld 2 60 18).2 rfl (by decide)

/-- C4 (as stated) diverges from the code: in `happyWorld`, where
`inference_video.py` exists and would succeed, `RIFEInterpolator.interpolate`
run in core.py's actual module environment raises `NameError` for `sys`
while building the first candidate's command (core.py line 141), before
invoking any script — the claimed with/without-`--modelDir` fallback
search is unreachable because core.py never imports `sys`. -/
theorem c4_interpolate_name_error :
    (interpolate coreSysBound happyWorld 2 initSt).1 = Except.error (PyErr.nameError "sys") ∧
    (interpolate coreSysBound happyWorld 2 initSt).2.invocations = [] := by
  constructor <;> rfl

end Ufps
